import Mathlib

/-
  Verification development for the gitnoob repository (MARSAIalpha/gitnoob).

  Shallow embedding of the orchestration and enrichment pipeline:
    - src/github_hub/master.py   (MasterAgent: run_full_scan, run_batch_analysis,
                                  run_news_scan, stop_task, _notify)
    - src/github_hub/database.py (Database: upsert_project, get_project,
                                  get_projects_needing_analysis, update_* helpers,
                                  get_all_categories_summary)
    - src/github_hub/crawler.py  (CrawlerAgent: search_by_keywords, search_remote)
    - src/github_hub/config.py   (CATEGORIES, DISCOVERY_URLS, GITHUB_TOKEN, SCAN_CONFIG)

  Modelling conventions:
    - The catalog store (Supabase) is a list of rows; network failure of a
      store operation is injected through an environment flag (db_fail), since
      any Supabase call can raise at runtime.
    - External collaborators (GitHub API, LM Studio models, Playwright
      screenshots) are pure environment functions.  The analyzer/content/crawler
      helper methods catch all of their own exceptions internally in the source
      (returning fallback values), so they are modelled as non-raising.
    - Python exceptions are Except / Option error values; try/except/finally is
      explicit control flow.
    - Timestamp columns (last_scanned, last_analyzed, created_at, ...) are
      elided: no claim mentions them, and they never influence control flow.
    - Observation points record snapshots of the run state (is_running,
      current_task, progress) at each mutation, and collaborator calls are
      recorded in traces.
-/

namespace GH

/-- ASCII lowercasing, character by character (model of Python str.lower;
String.toLower itself is defined by well-founded recursion and does not
reduce in the kernel). -/
def pyLower (s : String) : String :=
  ⟨s.data.map Char.toLower⟩

/-- Substring test on strings (model of the Python `in` operator on str). -/
def containsSub (s pat : String) : Bool :=
  let sl := s.toList
  let pl := pat.toList
  (List.range (sl.length + 1)).any fun i => pl.isPrefixOf (sl.drop i)

/-- SQL ILIKE with pattern percent-p-percent: case-insensitive containment. -/
def ilike120b (m : String) : Bool :=
  containsSub (pyLower m) "120b"

/-- Python truthiness of an optional string: None and the empty string are falsy. -/
def isTruthy : Option String → Bool
  | none => false
  | some s => !(s == "")

/-! ## config.py -/

/-- One entry of the CATEGORIES dict in config.py (id, display name, keywords). -/
structure CatCfg where
  id : String
  name : String
  keywords : List String
deriving Repr, DecidableEq

/-- config.CATEGORIES, in insertion order (Python dicts preserve it). -/
def CATEGORIES : List CatCfg := [
  ⟨"llm_rag", "🧠 LLM & RAG", ["llm", "langchain", "rag", "ollama", "llamaindex"]⟩,
  ⟨"ai_agent", "🤖 AI Agent", ["ai-agent", "autogen", "crewai", "metagpt", "agentgpt"]⟩,
  ⟨"multimodal", "🖼️ 多模态", ["vision-language", "clip", "llava", "gpt4v", "multimodal"]⟩,
  ⟨"image_gen", "🎨 图像生成", ["stable-diffusion", "comfyui", "flux", "sdxl", "diffusers"]⟩,
  ⟨"tts_voice", "🔊 语音合成", ["tts", "voice-clone", "whisper", "so-vits", "bark"]⟩,
  ⟨"digital_human", "👤 数字人", ["digital-human", "talking-head", "wav2lip", "sadtalker"]⟩,
  ⟨"mcp", "🔌 MCP 协议", ["model-context-protocol", "mcp", "tool-use"]⟩,
  ⟨"devops", "🛠️ DevOps", ["docker", "kubernetes", "cicd", "terraform", "ansible"]⟩,
  ⟨"fullstack", "🌐 全栈框架", ["nextjs", "nuxt", "remix", "astro", "sveltekit"]⟩,
  ⟨"ui_design", "🎨 UI 设计", ["ui-design", "design-system", "component-library", "ui-kit", "tailwindcss", "css-animation"]⟩,
  ⟨"video", "📹 视频处理", ["video-editing", "ffmpeg", "bilibili", "youtube-dl", "yt-dlp"]⟩,
  ⟨"news", "📰 信息聚合", ["rss", "news-crawler", "readability", "feed"]⟩,
  ⟨"visualization", "📊 数据可视化", ["dashboard", "chart", "grafana", "echarts"]⟩,
  ⟨"awesome", "📚 学习资源", ["awesome", "roadmap", "interview", "tutorial"]⟩,
  ⟨"trending", "🔥 Trending", []⟩,
  ⟨"new_releases", "🆕 新兴项目", []⟩,
  ⟨"manual", "🔧 手动添加", []⟩]

/-- config.DISCOVERY_URLS. -/
def DISCOVERY_URLS : List String :=
  ["https://github.com/trending", "https://github.com/trending?since=weekly"]

/-- config.GITHUB_TOKEN (None in the repository). -/
def GITHUB_TOKEN : Option String := none

/-- config.SCAN_CONFIG min_stars value. -/
def MIN_STARS : Nat := 100

/-! ## Data model: one catalog row (the projects table) -/

/-- One row of the projects table.  Fetch-derived fields first, then the
AI-derived fields, each independently nullable. -/
structure Project where
  id : String
  name : String
  full_name : String
  category : String
  stars : Nat
  forks : Nat
  description : String
  url : String
  language : Option String
  ai_summary : Option String
  ai_tech_stack : List String
  ai_use_cases : List String
  ai_difficulty : Option Nat
  ai_quick_start : Option String
  ai_model_name : Option String
  ai_rag_summary : Option String
  screenshot : Option String
  ai_visual_summary : Option String
  ai_tutorial : Option String
deriving Repr, DecidableEq

/-- The analysis record produced by AnalyzerAgent.analyze_project (its
strict-JSON contract, as consumed by Database.update_project_analysis). -/
structure Analysis where
  summary : Option String
  tech_stack : List String
  use_cases : List String
  difficulty : Option Nat
  quick_start : Option String
  model_name : Option String
deriving Repr, DecidableEq

/-- The projects table. -/
abbrev Db := List Project

/-! ## database.py operations (pure over the table; network failure of the
Supabase round-trip is injected separately by the interpreter). -/

/-- Database.upsert_project: the payload carries only fetch-derived columns, so
an existing row keeps its AI fields, and a fresh row gets NULL AI columns. -/
def upsert_project (db : Db) (p : Project) : Db :=
  if db.any (fun q => q.id == p.id) then
    db.map fun q =>
      if q.id == p.id then
        { q with name := p.name, full_name := p.full_name, category := p.category,
                 stars := p.stars, forks := p.forks, description := p.description,
                 url := p.url, language := p.language }
      else q
  else
    db ++ [{ p with ai_summary := none, ai_tech_stack := [], ai_use_cases := [],
                    ai_difficulty := none, ai_quick_start := none, ai_model_name := none,
                    ai_rag_summary := none, screenshot := none,
                    ai_visual_summary := none, ai_tutorial := none }]

/-- Database.get_project. -/
def get_project (db : Db) (pid : String) : Option Project :=
  db.find? fun q => q.id == pid

/-- Database.update_project_analysis: writes the five analysis columns plus the
producing-model column (analysis.get, so absent keys write NULL). -/
def update_project_analysis (db : Db) (pid : String) (a : Analysis) : Db :=
  db.map fun q =>
    if q.id == pid then
      { q with ai_summary := a.summary, ai_tech_stack := a.tech_stack,
               ai_use_cases := a.use_cases, ai_difficulty := a.difficulty,
               ai_quick_start := a.quick_start, ai_model_name := a.model_name }
    else q

/-- Database.update_project_rag_summary. -/
def update_project_rag_summary (db : Db) (pid : String) (s : String) : Db :=
  db.map fun q => if q.id == pid then { q with ai_rag_summary := some s } else q

/-- Database.update_project_screenshot. -/
def update_project_screenshot (db : Db) (pid : String) (path : String) : Db :=
  db.map fun q => if q.id == pid then { q with screenshot := some path } else q

/-- Database.update_project_visual_summary. -/
def update_project_visual_summary (db : Db) (pid : String) (s : String) : Db :=
  db.map fun q => if q.id == pid then { q with ai_visual_summary := some s } else q

/-- Database.update_project_tutorial. -/
def update_project_tutorial (db : Db) (pid : String) (t : String) : Db :=
  db.map fun q => if q.id == pid then { q with ai_tutorial := some t } else q

/-- Database.get_projects_needing_analysis (target_model is the default 120b):
first the rows with NULL ai_summary up to the limit, then, if room remains,
rows with a summary whose ai_model_name does NOT ilike match the target model
(a NULL model name fails the NOT ILIKE predicate and is excluded). -/
def get_projects_needing_analysis (db : Db) (lim : Nat) : List Project :=
  let part1 := (db.filter fun p => p.ai_summary.isNone).take lim
  let part2 :=
    if part1.length < lim then
      (db.filter fun p =>
        p.ai_summary.isSome &&
        (match p.ai_model_name with
         | some m => !(ilike120b m)
         | none => false)).take (lim - part1.length)
    else []
  part1 ++ part2

/-- Database.get_all_categories_summary: category to row count, categories in
first-appearance order, only categories with at least one row appear. -/
def get_all_categories_summary (db : Db) : List (String × Nat) :=
  db.foldl
    (fun acc q =>
      if acc.any (fun kv => kv.1 == q.category) then
        acc.map fun kv => if kv.1 == q.category then (kv.1, kv.2 + 1) else kv
      else acc ++ [(q.category, 1)])
    []

/-- Lookup in the category summary (Python dict .get with absent key giving the
default). -/
def summaryLookup (m : List (String × Nat)) (k : String) : Option Nat :=
  (m.find? fun kv => kv.1 == k).map fun kv => kv.2

/-! ## Run state (process-local state of MasterAgent) -/

/-- MasterAgent.progress dict. -/
structure Progress where
  total : Nat
  done : Nat
  current : String
deriving Repr, DecidableEq

/-- Snapshot of the run-state fields of MasterAgent. -/
structure RunState where
  is_running : Bool
  current_task : Option String
  progress : Progress
deriving Repr, DecidableEq

/-- Full mutable state threaded through a run: run state plus the catalog. -/
structure MState where
  run : RunState
  db : Db
deriving Repr, DecidableEq

/-- An event delivered through MasterAgent._notify. -/
structure Event where
  message : String
  level : String
deriving Repr, DecidableEq

/-- A collaborator call issued during a run (external services and catalog
store round-trips). -/
inductive Call where
  | crawlPage (url : String)
  | trendingCall
  | newReleasesCall
  | searchKeywords (category : String)
  | readme (fullName : String)
  | analyze (id : String)
  | rag (id : String)
  | capture (id : String)
  | vision (id : String)
  | tutorial (id : String)
  | dbGetProject (id : String)
  | dbUpsert (id : String)
  | dbUpdateAnalysis (id : String)
  | dbUpdateRag (id : String)
  | dbUpdateScreenshot (id : String)
  | dbUpdateVisual (id : String)
  | dbUpdateTutorial (id : String)
  | dbQueryPending
  | archiveExport
deriving Repr, DecidableEq

/-- Catalog-store writes/reads that can raise at runtime (Supabase network
round-trips). -/
inductive DbW where
  | getProject (id : String)
  | upsert (id : String)
  | updateAnalysis (id : String)
  | updateRag (id : String)
  | updateScreenshot (id : String)
  | updateVisual (id : String)
  | updateTutorial (id : String)
  | queryPending
deriving Repr, DecidableEq

/-- Environment of a run: collaborator behaviour and injected failures.
Crawler fetch methods and the analyzer/content methods catch all their own
exceptions in the source and return fallbacks, so they appear as total
functions; catalog-store round-trips may raise (db_fail); archive_fail models
the os.makedirs call of archive_data that sits outside its try block; stop_at
models a concurrent stop_task clearing is_running before iteration i of the
batch loop. -/
structure Env where
  trending : List Project
  new_releases : List Project
  search : List String → String → List Project
  crawl_page : String → List Project
  readme : String → Option String
  analyze : Project → Option String → Analysis
  rag : Project → Option String → String
  capture : String → String → Option String
  vision : Project → String → String
  tutorial : Project → Option String → String → String
  db_fail : DbW → Bool
  archive_fail : Bool
  stop_at : Nat → Bool

/-- Result of a whole MasterAgent operation: final state, returned value, and
the traces (collaborator calls, emitted events, run-state observation points). -/
structure Outcome (ρ : Type) where
  state : MState
  result : ρ
  calls : List Call
  events : List Event
  obs : List RunState
deriving Repr

/-! ## MasterAgent.stop_task -/

/-- MasterAgent.stop_task: clears is_running if a task is active. -/
def stop_task (s : MState) : MState × String :=
  if s.run.is_running then
    (⟨{ s.run with is_running := false }, s.db⟩, "stopping")
  else (s, "not_running")

/-! ## MasterAgent.run_news_scan (master.py lines 310-351) -/

/-- Per-source project loop of run_news_scan: count only ids absent from the
catalog, and upsert them under the forced category news.  Store round-trips can
raise; a raise aborts the whole scan body. -/
def news_proj_loop (env : Env) : List Project → Db → Db × List Call × List Event × Nat × Option String
  | [], db => (db, [], [], 0, none)
  | p :: rest, db =>
    if env.db_fail (DbW.getProject p.id) then
      (db, [Call.dbGetProject p.id], [], 0, some "DbError")
    else
      match get_project db p.id with
      | some _ =>
        let r := news_proj_loop env rest db
        (r.1, Call.dbGetProject p.id :: r.2.1, r.2.2)
      | none =>
        if env.db_fail (DbW.upsert p.id) then
          (db, [Call.dbGetProject p.id, Call.dbUpsert p.id], [], 0, some "DbError")
        else
          let db1 := upsert_project db { p with category := "news" }
          let r := news_proj_loop env rest db1
          (r.1, Call.dbGetProject p.id :: Call.dbUpsert p.id :: r.2.1,
           ⟨"Found new project: " ++ p.name, "success"⟩ :: r.2.2.1, r.2.2.2.1 + 1, r.2.2.2.2)

/-- The per-URL loop of run_news_scan. -/
def news_url_loop (env : Env) : List String → Db → Db × List Call × List Event × Nat × Option String
  | [], db => (db, [], [], 0, none)
  | url :: rest, db =>
    let ev : Event := ⟨"Crawling source: " ++ url ++ "...", "info"⟩
    let ps := env.crawl_page url
    let r1 := news_proj_loop env ps db
    match r1.2.2.2.2 with
    | some msg =>
      (r1.1, Call.crawlPage url :: r1.2.1, ev :: r1.2.2.1, r1.2.2.2.1, some msg)
    | none =>
      let r2 := news_url_loop env rest r1.1
      (r2.1, Call.crawlPage url :: r1.2.1 ++ r2.2.1, ev :: r1.2.2.1 ++ r2.2.2.1,
       r1.2.2.2.1 + r2.2.2.2.1, r2.2.2.2.2)

/-- Returned value of run_news_scan. -/
structure NewsResult where
  total_found : Nat
  error : Option String
deriving Repr, DecidableEq

/-- MasterAgent.run_news_scan: claims the run slot WITHOUT a busy check, sets
current_task to news_scan, scans the discovery sources, and its finally block
releases the run slot (is_running false, current_task None) on every exit. -/
def run_news_scan (env : Env) (s : MState) : Outcome NewsResult :=
  let rs1 : RunState := ⟨true, some "news_scan", s.run.progress⟩
  let startEv : Event := ⟨"Starting News Discovery Scan...", "info"⟩
  let r := news_url_loop env DISCOVERY_URLS s.db
  let rsF : RunState := ⟨false, none, s.run.progress⟩
  match r.2.2.2.2 with
  | some msg =>
    ⟨⟨rsF, r.1⟩, ⟨0, some msg⟩, r.2.1,
     startEv :: r.2.2.1 ++ [⟨"News scan error: " ++ msg, "error"⟩], [rs1, rsF]⟩
  | none =>
    ⟨⟨rsF, r.1⟩, ⟨r.2.2.2.1, none⟩, r.2.1,
     startEv :: r.2.2.1 ++
       [⟨"News Scan Completed. Found " ++ toString r.2.2.2.1 ++ " new projects.", "success"⟩],
     [rs1, rsF]⟩

/-! ## MasterAgent.run_batch_analysis (master.py lines 204-287) -/

/-- An atomic action of the per-entry enrichment sequence: a collaborator
call, an emitted event, or a catalog-store write (which can raise). -/
inductive Act where
  | call (c : Call)
  | ev (e : Event)
  | write (w : DbW) (upd : Db → Db)

/-- The is_120b test of the batch loop (line 233): truthy model name whose
lowercase form contains 120b. -/
def is120b (p : Project) : Bool :=
  match p.ai_model_name with
  | some m => containsSub (pyLower m) "120b"
  | none => false

/-- Stage 1 of the batch entry: AI analysis, skipped when the entry was
already produced by a 120b model. -/
def stage1_analysis (env : Env) (p : Project) (readme : Option String) (b120 : Bool) :
    List Act :=
  if b120 then []
  else
    [Act.call (Call.analyze p.id),
     Act.write (DbW.updateAnalysis p.id)
       (fun db => update_project_analysis db p.id (env.analyze p readme))]

/-- Stage 1.1 of the batch entry: RAG summary, generated when it is missing or
the entry is not from a 120b run; written only when the generator returned a
non-empty string. -/
def stage11_rag (env : Env) (p : Project) (readme : Option String) (b120 : Bool) :
    List Act :=
  if !(isTruthy p.ai_rag_summary) || !b120 then
    let rs := env.rag p readme
    [Act.call (Call.rag p.id)] ++
    (if rs == "" then []
     else [Act.write (DbW.updateRag p.id)
             (fun db => update_project_rag_summary db p.id rs)])
  else []

/-- Stage 2 of the batch entry: screenshot capture when the entry has none;
the path is stored only when capture produced one. -/
def stage2_shot (p : Project) (tag : String) (cap : Option String) : List Act :=
  if isTruthy p.screenshot then []
  else
    [Act.ev ⟨tag ++ " 正在截图 " ++ p.name ++ "...", "info"⟩,
     Act.call (Call.capture p.id)] ++
    (if isTruthy cap then
       [Act.write (DbW.updateScreenshot p.id)
          (fun db => update_project_screenshot db p.id (cap.getD ""))]
     else [])

/-- Stage 3 of the batch entry: visual analysis, run whenever a screenshot
path is available (pre-existing or freshly captured), and its result is
written unconditionally in that case. -/
def stage3_vision (p : Project) (tag : String) (sp : Option String) (vs : String) :
    List Act :=
  if isTruthy sp then
    [Act.ev ⟨tag ++ " 视觉分析 (OCR) " ++ p.name ++ "...", "info"⟩,
     Act.call (Call.vision p.id),
     Act.write (DbW.updateVisual p.id)
       (fun db => update_project_visual_summary db p.id vs)]
  else []

/-- Stage 4 of the batch entry: tutorial generation and write, unconditional. -/
def stage4_tutorial (env : Env) (p : Project) (tag : String) (readme : Option String)
    (vs : String) : List Act :=
  [Act.ev ⟨tag ++ " 生成深度教程...", "info"⟩,
   Act.call (Call.tutorial p.id),
   Act.write (DbW.updateTutorial p.id)
     (fun db => update_project_tutorial db p.id (env.tutorial p readme vs)),
   Act.ev ⟨tag ++ " ✅ " ++ p.name ++ " 处理完成", "success"⟩]

/-- The action sequence of one iteration of the run_batch_analysis loop
(master.py lines 225-272): README fetch, then AI analysis unless the entry was
already produced by a 120b model, RAG summary unless present from a 120b run,
screenshot capture if missing, visual analysis whenever a screenshot path is
available, and an unconditional tutorial generation. -/
def entry_acts (env : Env) (p : Project) (idx total : Nat) : List Act :=
  let tag := "[" ++ toString idx ++ "/" ++ toString total ++ "]"
  let readme := env.readme p.full_name
  let b120 := is120b p
  let cap := if isTruthy p.screenshot then none else env.capture p.url p.id
  let sp := if isTruthy p.screenshot then p.screenshot else cap
  let vs := if isTruthy sp then env.vision p (sp.getD "") else ""
  [Act.ev ⟨tag ++ " 正在分析 " ++ p.name ++ "...", "info"⟩,
   Act.call (Call.readme p.full_name)]
  ++ stage1_analysis env p readme b120
  ++ stage11_rag env p readme b120
  ++ stage2_shot p tag cap
  ++ stage3_vision p tag sp vs
  ++ stage4_tutorial env p tag readme vs

/-- Interpreter for an action sequence: executes in order; a failing store
round-trip raises, keeping the calls and events already issued and dropping
the rest of the sequence. -/
def run_acts (env : Env) : List Act → Db → Db × List Call × List Event × Option String
  | [], db => (db, [], [], none)
  | Act.call c :: rest, db =>
    let r := run_acts env rest db
    (r.1, c :: r.2.1, r.2.2)
  | Act.ev e :: rest, db =>
    let r := run_acts env rest db
    (r.1, r.2.1, e :: r.2.2.1, r.2.2.2)
  | Act.write w upd :: rest, db =>
    if env.db_fail w then (db, [], [], some "DbError")
    else
      let r := run_acts env rest (upd db)
      (r.1, r.2.1, r.2.2)

/-- Accumulated outcome of the run_batch_analysis entry loop. -/
structure BLoopOut where
  db : Db
  calls : List Call
  events : List Event
  progObs : List Progress
  count : Nat
  prog : Progress
  err : Option String
deriving Repr

/-- The entry loop of run_batch_analysis: checks the cooperative cancellation
flag at each iteration boundary (break if stop_task cleared is_running), and
has NO per-entry exception handler — a raise inside one entry propagates out
of the loop. -/
def batch_loop (env : Env) (total : Nat) :
    List (Nat × Project) → Db → Nat → Progress → BLoopOut
  | [], db, count, prog => ⟨db, [], [], [], count, prog, none⟩
  | (idx, p) :: rest, db, count, prog =>
    if env.stop_at idx then ⟨db, [], [], [], count, prog, none⟩
    else
      let prog1 : Progress := { prog with current := "Analyzing: " ++ p.name }
      let r := run_acts env (entry_acts env p idx total) db
      match r.2.2.2 with
      | some msg => ⟨r.1, r.2.1, r.2.2.1, [prog1], count, prog1, some msg⟩
      | none =>
        let prog2 : Progress := { prog1 with done := prog1.done + 1 }
        let out := batch_loop env total rest r.1 (count + 1) prog2
        ⟨out.db, r.2.1 ++ out.calls, r.2.2.1 ++ out.events,
         prog1 :: prog2 :: out.progObs, out.count, out.prog, out.err⟩

/-- Returned value of run_batch_analysis. -/
structure BatchResult where
  status : Option String
  count : Nat
  error : Option String
deriving Repr, DecidableEq

/-- Intermediate outcome of the try block of run_batch_analysis. -/
structure BatchBodyOut where
  db : Db
  calls : List Call
  events : List Event
  progObs : List Progress
  count : Nat
  prog : Progress
  err : Option String
deriving Repr

/-- The try block of run_batch_analysis: query the backlog (a store read that
can raise), initialise the progress counters, and run the entry loop. -/
def batch_body (env : Env) (s : MState) : BatchBodyOut :=
  if env.db_fail DbW.queryPending then
    ⟨s.db, [Call.dbQueryPending], [], [], 0, s.run.progress, some "DbError"⟩
  else
    let pending := get_projects_needing_analysis s.db 100
    let total := pending.length
    let startEv : Event :=
      ⟨"Starting batch analysis for " ++ toString total ++
       " projects using High-Quality Model...", "info"⟩
    let prog0 : Progress := ⟨total, 0, "Batch Analysis"⟩
    let out := batch_loop env total (List.enumFrom 1 pending) s.db 0 prog0
    ⟨out.db, Call.dbQueryPending :: out.calls, startEv :: out.events,
     prog0 :: out.progObs, out.count, out.prog, out.err⟩

/-- MasterAgent.run_batch_analysis: single-flight gate, then the try block,
an except handler that logs the error as an event and returns an error result,
and a finally block that releases the run slot on every exit path. -/
def run_batch_analysis (env : Env) (s : MState) : Outcome BatchResult :=
  if s.run.is_running then
    ⟨s, ⟨none, 0, some "Task already running"⟩, [], [], []⟩
  else
    let rs1 : RunState := ⟨true, some "batch_analysis", s.run.progress⟩
    let body := batch_body env s
    let rsF : RunState := ⟨false, none, body.prog⟩
    ⟨⟨rsF, body.db⟩,
     (match body.err with
      | some msg => ⟨none, 0, some msg⟩
      | none => ⟨some "completed", body.count, none⟩),
     body.calls,
     body.events ++
       (match body.err with
        | some msg => [⟨"Batch analysis error: " ++ msg, "error"⟩]
        | none => [⟨"🎉 批量分析完成！共处理 " ++ toString body.count ++ " 个项目", "success"⟩]),
     rs1 :: body.progObs.map (fun pr => ⟨true, some "batch_analysis", pr⟩) ++ [rsF]⟩

/-! ## MasterAgent.run_full_scan (master.py lines 81-161) -/

/-- The per-category count lookup of run_full_scan (master.py line 104):
the summary maps categories to plain integer counts, but the code calls
cat_counts.get(cat_id, curly-braces).get(count-key, 0) — when the category IS
present the inner .get is attribute access on an int and raises
AttributeError; when it is absent the default empty dict yields 0. -/
def build_counts (summary : List (String × Nat)) :
    List CatCfg → Except String (List (CatCfg × Nat))
  | [] => Except.ok []
  | c :: rest =>
    match summaryLookup summary c.id with
    | some _ => Except.error "AttributeError: int object has no attribute get"
    | none =>
      match build_counts summary rest with
      | Except.error e => Except.error e
      | Except.ok tl => Except.ok ((c, 0) :: tl)

/-- Stable insertion into a list sorted by ascending count (new element goes
after existing equal counts). -/
def insert_sorted (x : CatCfg × Nat) : List (CatCfg × Nat) → List (CatCfg × Nat)
  | [] => [x]
  | y :: ys => if x.2 < y.2 then x :: y :: ys else y :: insert_sorted x ys

/-- sorted_cats.sort(key count): Python list.sort is stable; modelled by a
stable insertion sort ascending by count. -/
def sort_by_count (l : List (CatCfg × Nat)) : List (CatCfg × Nat) :=
  l.foldl (fun acc x => insert_sorted x acc) []

/-- Upserting every fetched project of one category; each store round-trip can
raise, aborting the rest. -/
def upsert_all (env : Env) : List Project → Db → Db × List Call × Option String
  | [], db => (db, [], none)
  | p :: rest, db =>
    if env.db_fail (DbW.upsert p.id) then (db, [Call.dbUpsert p.id], some "DbError")
    else
      let r := upsert_all env rest (upsert_project db p)
      (r.1, Call.dbUpsert p.id :: r.2.1, r.2.2)

/-- Accumulated outcome of the per-category crawl loop of run_full_scan. -/
structure CrawlOut where
  db : Db
  calls : List Call
  events : List Event
  progObs : List Progress
  crawl : List (String × Nat)
  prog : Progress
  err : Option String
deriving Repr

/-- The fetch collaborator used for one category (trending and new_releases
use their dedicated fetchers, the rest the keyword search). -/
def cat_fetch_projects (env : Env) (c : CatCfg) : List Project :=
  if c.id == "trending" then env.trending
  else if c.id == "new_releases" then env.new_releases
  else env.search c.keywords c.id

/-- The collaborator call corresponding to the fetch of one category. -/
def cat_fetch_call (c : CatCfg) : Call :=
  if c.id == "trending" then Call.trendingCall
  else if c.id == "new_releases" then Call.newReleasesCall
  else Call.searchKeywords c.id

/-- Step 1 of run_full_scan: fetch each category in the sorted order, upsert
every result, record the per-category count, and advance the done counter. -/
def crawl_loop (env : Env) : List (CatCfg × Nat) → Db → Progress → CrawlOut
  | [], db, prog => ⟨db, [], [], [], [], prog, none⟩
  | (c, cnt) :: rest, db, prog =>
    let prog1 : Progress :=
      { prog with current := "Crawling: " ++ c.name ++ " (Current: " ++ toString cnt ++ ")" }
    let ev1 : Event := ⟨"Scanning " ++ c.name ++ " (Current: " ++ toString cnt ++ ")...", "info"⟩
    let fetchCall : Call := cat_fetch_call c
    let projects : List Project := cat_fetch_projects env c
    let up := upsert_all env projects db
    match up.2.2 with
    | some msg =>
      ⟨up.1, fetchCall :: up.2.1, [ev1], [prog1], [], prog1, some msg⟩
    | none =>
      let prog2 : Progress := { prog1 with done := prog1.done + 1 }
      let ev2 : Event := ⟨"Found " ++ toString projects.length ++ " in " ++ c.name, "success"⟩
      let out := crawl_loop env rest up.1 prog2
      ⟨out.db, fetchCall :: up.2.1 ++ out.calls, ev1 :: ev2 :: out.events,
       prog1 :: prog2 :: out.progObs, (c.id, projects.length) :: out.crawl,
       out.prog, out.err⟩

/-- Accumulated outcome of the AI-analysis loop of run_full_scan step 2. -/
structure AnOut where
  db : Db
  calls : List Call
  events : List Event
  progObs : List Progress
  count : Nat
  prog : Progress
  err : Option String
deriving Repr

/-- Step 2 of run_full_scan: per pending project fetch the README, run the
analyzer, write the analysis (a store round-trip that can raise), then bump
the analyzed counter and the done counter. -/
def scan_analyze_loop (env : Env) : List Project → Db → Progress → AnOut
  | [], db, prog => ⟨db, [], [], [], 0, prog, none⟩
  | p :: rest, db, prog =>
    let prog1 : Progress := { prog with current := "Analyzing: " ++ p.name }
    let readme := env.readme p.full_name
    let analysis := env.analyze p readme
    let calls : List Call :=
      [Call.readme p.full_name, Call.analyze p.id, Call.dbUpdateAnalysis p.id]
    if env.db_fail (DbW.updateAnalysis p.id) then
      ⟨db, calls, [], [prog1], 0, prog1, some "DbError"⟩
    else
      let db1 := update_project_analysis db p.id analysis
      let prog2 : Progress := { prog1 with done := prog1.done + 1 }
      let ev : Event := ⟨"Analyzed: " ++ p.name, "success"⟩
      let out := scan_analyze_loop env rest db1 prog2
      ⟨out.db, calls ++ out.calls, ev :: out.events,
       prog1 :: prog2 :: out.progObs, out.count + 1, out.prog, out.err⟩

/-- Returned value of run_full_scan (results dict; content is never
incremented in the source). -/
structure FullScanResult where
  crawl : List (String × Nat)
  analyze : Nat
  content : Nat
  error : Option String
deriving Repr, DecidableEq

/-- Intermediate outcome of the try block of run_full_scan. -/
structure ScanBodyOut where
  db : Db
  calls : List Call
  events : List Event
  obs : List RunState
  crawl : List (String × Nat)
  analyze : Nat
  prog : Progress
  err : Option String
deriving Repr

/-- The try block of run_full_scan (master.py lines 90-152): step 0 nested
run_news_scan call (whose finally block releases the run slot, so every later
observation in this body shows is_running false and current_task None), step 1
per-category crawl in ascending-count order, step 2 AI analysis of the
backlog, step 3 archive export (its os.makedirs runs outside its internal
try and can raise). -/
def full_scan_body (env : Env) (s : MState) : ScanBodyOut :=
  let news := run_news_scan env s
  let afterNews : RunState := news.state.run
  let prog1 : Progress := ⟨CATEGORIES.length, 0, "Crawling"⟩
  let rs2 : RunState := { afterNews with progress := prog1 }
  let startEv : Event := ⟨"Starting full scan (Priority: Low Count First)...", "info"⟩
  let summary := get_all_categories_summary news.state.db
  match build_counts summary CATEGORIES with
  | Except.error msg =>
    ⟨news.state.db, news.calls, news.events ++ [startEv],
     news.obs ++ [rs2], [], 0, prog1, some msg⟩
  | Except.ok cats =>
    let sorted := sort_by_count cats
    let cr := crawl_loop env sorted news.state.db prog1
    let crawlObs := cr.progObs.map fun pr => { afterNews with progress := pr }
    match cr.err with
    | some msg =>
      ⟨cr.db, news.calls ++ cr.calls, news.events ++ startEv :: cr.events,
       news.obs ++ rs2 :: crawlObs, cr.crawl, 0, cr.prog, some msg⟩
    | none =>
      let anStartEv : Event := ⟨"Starting AI analysis...", "info"⟩
      if env.db_fail DbW.queryPending then
        ⟨cr.db, news.calls ++ cr.calls ++ [Call.dbQueryPending],
         news.events ++ startEv :: cr.events ++ [anStartEv],
         news.obs ++ rs2 :: crawlObs, cr.crawl, 0, cr.prog, some "DbError"⟩
      else
        let pending := get_projects_needing_analysis cr.db 50
        let prog2 : Progress := ⟨pending.length, 0, "Analyzing"⟩
        let rs3 : RunState := { afterNews with progress := prog2 }
        let an := scan_analyze_loop env pending cr.db prog2
        let anObs := an.progObs.map fun pr => { afterNews with progress := pr }
        match an.err with
        | some msg =>
          ⟨an.db, news.calls ++ cr.calls ++ Call.dbQueryPending :: an.calls,
           news.events ++ startEv :: cr.events ++ anStartEv :: an.events,
           news.obs ++ rs2 :: crawlObs ++ rs3 :: anObs,
           cr.crawl, an.count, an.prog, some msg⟩
        | none =>
          let doneEv : Event := ⟨"Full scan completed!", "success"⟩
          if env.archive_fail then
            ⟨an.db, news.calls ++ cr.calls ++ Call.dbQueryPending :: an.calls,
             news.events ++ startEv :: cr.events ++ anStartEv :: an.events ++ [doneEv],
             news.obs ++ rs2 :: crawlObs ++ rs3 :: anObs,
             cr.crawl, an.count, an.prog, some "ArchiveError"⟩
          else
            ⟨an.db, news.calls ++ cr.calls ++ Call.dbQueryPending :: an.calls
               ++ [Call.archiveExport],
             news.events ++ startEv :: cr.events ++ anStartEv :: an.events ++ [doneEv],
             news.obs ++ rs2 :: crawlObs ++ rs3 :: anObs,
             cr.crawl, an.count, an.prog, none⟩

/-- MasterAgent.run_full_scan: single-flight gate (fail fast with a busy error
and no side effects), then claim the run slot (is_running true, current_task
full_scan), run the try block, record any stage exception in the error field of
the results dict, and release the run slot in the finally block. -/
def run_full_scan (env : Env) (s : MState) : Outcome FullScanResult :=
  if s.run.is_running then
    ⟨s, ⟨[], 0, 0, some "Scan already running"⟩, [], [], []⟩
  else
    let rs1 : RunState := ⟨true, some "full_scan", s.run.progress⟩
    let body := full_scan_body env ⟨rs1, s.db⟩
    let rsF : RunState := ⟨false, none, body.prog⟩
    ⟨⟨rsF, body.db⟩,
     ⟨body.crawl, body.analyze, 0, body.err⟩,
     body.calls,
     body.events ++
       (match body.err with
        | some msg => [⟨"Error during scan: " ++ msg, "error"⟩]
        | none => []),
     rs1 :: body.obs ++ [rsF]⟩

/-! ## crawler.py: search_by_keywords (lines 64-111) -/

/-- One repository item of a GitHub search response, restricted to the fields
_parse_repo reads (topics/homepage/timestamps elided: no claim reads them). -/
structure ApiItem where
  id : Nat
  name : String
  full_name : String
  stargazers_count : Nat
  forks_count : Nat
  description : String
  html_url : String
  language : Option String
deriving Repr, DecidableEq

/-- CrawlerAgent._parse_repo: raw API item to a catalog row (AI fields absent). -/
def parse_repo (it : ApiItem) (category : String) : Project :=
  ⟨toString it.id, it.name, it.full_name, category, it.stargazers_count,
   it.forks_count, it.description, it.html_url, it.language,
   none, [], [], none, none, none, none, none, none, none⟩

/-- An HTTP search response: status plus parsed items (used when status < 400). -/
structure HttpResp where
  status : Nat
  items : List ApiItem
deriving Repr, DecidableEq

/-- Externally visible actions of search_by_keywords: HTTP requests and sleeps. -/
inductive FetchAct where
  | httpGet
  | sleepFor (secs : Nat)
deriving Repr, DecidableEq

/-- The query string built by search_by_keywords. -/
def build_search_query (keywords : List String) : String :=
  "(" ++ String.intercalate " OR " keywords ++ ") stars:>" ++ toString MIN_STARS

/-- CrawlerAgent.search_by_keywords, driven by the first response r1 and — only
when r1 signals quota exhaustion (403/429) — the retry response r2 obtained
after a fixed 60 second sleep.  raise_for_status then raises on any status of
400 and above, the surrounding except returns an empty list; on success the
items are parsed and a politeness sleep follows (2s with a token, 10s without;
the repository configures no token). -/
def search_by_keywords (r1 r2 : HttpResp) (keywords : List String) (category : String) :
    List Project × List FetchAct :=
  let _query := build_search_query keywords
  let quota := r1.status == 403 || r1.status == 429
  let resp := if quota then r2 else r1
  let acts0 : List FetchAct :=
    if quota then [FetchAct.httpGet, FetchAct.sleepFor 60, FetchAct.httpGet]
    else [FetchAct.httpGet]
  if 400 ≤ resp.status then ([], acts0)
  else
    let projects := resp.items.map fun it => parse_repo it category
    let delay : Nat := match GITHUB_TOKEN with | some _ => 2 | none => 10
    (projects, acts0 ++ [FetchAct.sleepFor delay])

/-! ## crawler.py: search_remote (lines 113-183) -/

/-- The local quality-filter blacklist of search_remote. -/
def EXCLUDE_KEYWORDS : List String :=
  ["book", "interview", "tutorial", "course", "awesome", "collection", "list", "cheatsheet"]

/-- Asymmetric filter switch: the blacklist is bypassed when the query itself
asks for that content. -/
def user_wants_tutorial (q : String) : Bool :=
  ["tutorial", "learn", "course", "book"].any fun k => containsSub (pyLower q) k

/-- The effective remote query after the default star filter is appended. -/
def build_remote_query (q : String) : String :=
  if containsSub q "sort:" then q
  else if containsSub q "stars:" then q else q ++ " stars:>50"

/-- Result of fetching one page: a network error (any requests exception) or a
response with status and items. -/
inductive PageResp where
  | net
  | http (status : Nat) (items : List ApiItem)

/-- The paginated fetch source of search_remote (pages of the fixed query). -/
structure RemoteEnv where
  page : Nat → PageResp

/-- The per-item loop of search_remote over one page: stop at the limit, apply
the blacklist unless the query wants such content, skip identifiers already
collected in this session, and tag parsed rows with the live-result marker. -/
def remote_inner (wants : Bool) (lim : Nat) : List ApiItem → List Project → List Project
  | [], acc => acc
  | it :: rest, acc =>
    if lim ≤ acc.length then acc
    else if !wants &&
        EXCLUDE_KEYWORDS.any
          (fun bad => containsSub (pyLower it.name) bad || containsSub (pyLower it.description) bad) then
      remote_inner wants lim rest acc
    else if acc.any (fun p => p.id == toString it.id) then
      remote_inner wants lim rest acc
    else
      remote_inner wants lim rest
        (acc ++ [{ parse_repo it "remote_search" with ai_rag_summary := some "GitHub Live Result" }])

/-- The page loop of search_remote: up to max_pages pages (3), stopping on the
limit, a rate-limit status, any other HTTP error or network exception (the
except just breaks), or an empty page. -/
def remote_pages (env : RemoteEnv) (wants : Bool) (lim : Nat) :
    Nat → Nat → List Project → List Project
  | _, 0, acc => acc
  | page, fuel + 1, acc =>
    if lim ≤ acc.length then acc
    else
      match env.page page with
      | PageResp.net => acc
      | PageResp.http status items =>
        if status == 403 || status == 429 then acc
        else if 400 ≤ status then acc
        else if items.isEmpty then acc
        else remote_pages env wants lim (page + 1) fuel (remote_inner wants lim items acc)

/-- CrawlerAgent.search_remote. -/
def search_remote (env : RemoteEnv) (q : String) (lim : Nat) : List Project :=
  remote_pages env (user_wants_tutorial q) lim 1 3 []

/-! ## MasterAgent._notify (master.py lines 65-71) -/

/-- Behaviour of one observer callback on an event: return normally or raise. -/
inductive CbRes where
  | ok
  | exn
deriving Repr, DecidableEq

/-- MasterAgent._notify: iterate over the registered callbacks, invoking each
with the event inside try/except pass, so a raising callback is swallowed and
the iteration continues with the next callback.  The returned list records,
in order, the event delivered to each callback and that callback's outcome. -/
def notify_loop (cbs : List (Event → CbRes)) (e : Event) : List (Event × CbRes) :=
  match cbs with
  | [] => []
  | cb :: rest => (e, cb e) :: notify_loop rest e

/-! ## Concrete instances used by closed theorems and witnesses -/

/-- A benign environment: empty fetch results, defaulting collaborators, no
store failures, no stop request. -/
def benignEnv : Env where
  trending := []
  new_releases := []
  search := fun _ _ => []
  crawl_page := fun _ => []
  readme := fun _ => none
  analyze := fun _ _ => ⟨some "a summary", ["Python"], ["dev"], some 3, some "git clone", none⟩
  rag := fun _ _ => "rag text"
  capture := fun _ _ => none
  vision := fun _ _ => "visual text"
  tutorial := fun _ _ _ => "tutorial text"
  db_fail := fun _ => false
  archive_fail := false
  stop_at := fun _ => false

/-- Idle initial state with an empty catalog. -/
def idle0 : MState := ⟨⟨false, none, ⟨0, 0, ""⟩⟩, []⟩

/-- A catalog row in the configured category llm_rag whose AI fields are all
populated by the 120b producing model. -/
def projLlm : Project :=
  ⟨"1", "proj1", "owner/proj1", "llm_rag", 500, 10, "desc", "https://github.com/owner/proj1",
   some "Python", some "sum", ["Py"], ["uc"], some 2, some "qs", some "openai/gpt-oss-120b",
   some "ragS", some "shot.jpg", some "vis", some "tut"⟩

/-- A fresh, unanalyzed catalog row (NULL AI fields). -/
def projNew : Project :=
  ⟨"2", "proj2", "owner/proj2", "manual", 5, 1, "d2", "https://github.com/owner/proj2",
   none, none, [], [], none, none, none, none, none, none, none⟩

/-- Idle state whose catalog holds the fully analyzed llm_rag row. -/
def sLlm : MState := ⟨⟨false, none, ⟨0, 0, ""⟩⟩, [projLlm]⟩

/-! ## C10: _notify never propagates an observer exception -/

/-- C10: for every list of registered callbacks and every event, _notify
returns normally and invokes every callback with the event: the delivery list
has one record per callback, and the i-th record shows the i-th callback
applied to the event — even when earlier callbacks raised (the except-pass
modelled by notify_loop continuing past an exn outcome). -/
theorem c10_notify_delivers_to_all (cbs : List (Event → CbRes)) (e : Event) :
    (notify_loop cbs e).length = cbs.length ∧
    ∀ i cb, cbs.get? i = some cb → (notify_loop cbs e).get? i = some (e, cb e) := by
  constructor
  · induction cbs with
    | nil => rfl
    | cons cb rest ih => simpa [notify_loop] using ih
  · intro i cb h
    induction cbs generalizing i with
    | nil => simp at h
    | cons c rest ih =>
      cases i with
      | zero =>
        simp only [List.get?] at h
        cases h
        rfl
      | succ n =>
        simp only [List.get?] at h
        simpa [notify_loop] using ih n h

/-- Witness for C10: with a raising callback in the middle, the third callback
still receives the event. -/
theorem c10_notify_witness :
    (notify_loop [fun _ => CbRes.ok, fun _ => CbRes.exn, fun _ => CbRes.ok]
        ⟨"hello", "info"⟩).get? 2
      = some (⟨"hello", "info"⟩, CbRes.ok) :=
  (c10_notify_delivers_to_all
      [fun _ => CbRes.ok, fun _ => CbRes.exn, fun _ => CbRes.ok]
      ⟨"hello", "info"⟩).2 2 (fun _ => CbRes.ok) rfl

/-! ## C6: search_by_keywords quota backoff -/

/-- C6: in search_by_keywords a quota-exceeded first response (403 or 429)
causes exactly one retry after a fixed 60 second sleep (exactly two HTTP
requests, the sleep between them); without the quota signal there is exactly
one request; if the retry also fails (status 400 and above) the call returns
an empty list instead of raising; if the retry succeeds with status 200 the
call returns the parsed items of the retry response. -/
theorem c6_search_by_keywords_backoff (r1 r2 : HttpResp) (kws : List String) (cat : String) :
    ((r1.status = 403 ∨ r1.status = 429) →
      (search_by_keywords r1 r2 kws cat).2.take 3
          = [FetchAct.httpGet, FetchAct.sleepFor 60, FetchAct.httpGet] ∧
      (search_by_keywords r1 r2 kws cat).2.count FetchAct.httpGet = 2) ∧
    (¬(r1.status = 403 ∨ r1.status = 429) →
      (search_by_keywords r1 r2 kws cat).2.count FetchAct.httpGet = 1) ∧
    ((r1.status = 403 ∨ r1.status = 429) → 400 ≤ r2.status →
      (search_by_keywords r1 r2 kws cat).1 = []) ∧
    ((r1.status = 403 ∨ r1.status = 429) → r2.status = 200 →
      (search_by_keywords r1 r2 kws cat).1 = r2.items.map fun it => parse_repo it cat) := by
  refine ⟨?_, ?_, ?_, ?_⟩
  · intro h
    have hq : (r1.status == 403 || r1.status == 429) = true := by
      rcases h with h | h <;> simp [h]
    by_cases h4 : 400 ≤ r2.status <;>
      simp [search_by_keywords, hq, h4, GITHUB_TOKEN] <;> decide
  · intro h
    push_neg at h
    have hq : (r1.status == 403 || r1.status == 429) = false := by
      simp [h.1, h.2]
    by_cases h4 : 400 ≤ r1.status <;>
      simp [search_by_keywords, hq, h4, GITHUB_TOKEN] <;> decide
  · intro h h4
    have hq : (r1.status == 403 || r1.status == 429) = true := by
      rcases h with h | h <;> simp [h]
    simp [search_by_keywords, hq, h4]
  · intro h h2
    have hq : (r1.status == 403 || r1.status == 429) = true := by
      rcases h with h | h <;> simp [h]
    have h4 : ¬(400 ≤ r2.status) := by omega
    simp [search_by_keywords, hq, h4]

/-- A concrete search item for the C6 witness. -/
def itemW : ApiItem :=
  ⟨77, "it", "o/it", 900, 3, "some repo", "https://github.com/o/it", some "Go"⟩

/-- Witness for C6: a 429 first response and a 200 retry yield the parsed
retry results, with the get-sleep-get action prefix. -/
theorem c6_search_by_keywords_witness :
    (search_by_keywords ⟨429, []⟩ ⟨200, [itemW]⟩ ["llm"] "llm_rag").1
        = [parse_repo itemW "llm_rag"] ∧
    (search_by_keywords ⟨429, []⟩ ⟨200, [itemW]⟩ ["llm"] "llm_rag").2.take 3
        = [FetchAct.httpGet, FetchAct.sleepFor 60, FetchAct.httpGet] :=
  ⟨(c6_search_by_keywords_backoff ⟨429, []⟩ ⟨200, [itemW]⟩ ["llm"] "llm_rag").2.2.2
      (Or.inr rfl) rfl,
   ((c6_search_by_keywords_backoff ⟨429, []⟩ ⟨200, [itemW]⟩ ["llm"] "llm_rag").1
      (Or.inr rfl)).1⟩

/-! ## C5: busy gate fails fast with no side effects -/

/-- C5: when is_running is already true, run_full_scan and run_batch_analysis
return the busy error result immediately with no side effects at all: the
whole outcome is the unchanged state, no collaborator or store call, no event,
no observation (in particular is_running, current_task and progress are
untouched). -/
theorem c5_busy_no_side_effects (env : Env) (s : MState) (h : s.run.is_running = true) :
    run_full_scan env s
        = ⟨s, ⟨[], 0, 0, some "Scan already running"⟩, [], [], []⟩ ∧
    run_batch_analysis env s
        = ⟨s, ⟨none, 0, some "Task already running"⟩, [], [], []⟩ := by
  constructor <;> simp [run_full_scan, run_batch_analysis, h]

/-- A state in which a batch analysis currently holds the run slot. -/
def busy0 : MState := ⟨⟨true, some "batch_analysis", ⟨3, 1, "Batch Analysis"⟩⟩, [projNew]⟩

/-- Witness for C5 at a concrete busy state. -/
theorem c5_busy_witness :
    run_full_scan benignEnv busy0
        = ⟨busy0, ⟨[], 0, 0, some "Scan already running"⟩, [], [], []⟩ ∧
    run_batch_analysis benignEnv busy0
        = ⟨busy0, ⟨none, 0, some "Task already running"⟩, [], [], []⟩ :=
  c5_busy_no_side_effects benignEnv busy0 rfl

/-! ## C4: run slot released on every exit path; scan errors recorded -/

/-- C4: whenever the gate admits a run, both run_full_scan and
run_batch_analysis leave is_running false and current_task None after the call
returns, whatever the environment did (their finally blocks); moreover the
error field of the run_full_scan result is exactly the exception raised by the
try-block body (None when no stage raised), so a stage-level exception is
recorded in the result instead of propagating. -/
theorem c4_run_slot_released (env : Env) (s : MState) (h : s.run.is_running = false) :
    (run_full_scan env s).state.run.is_running = false ∧
    (run_full_scan env s).state.run.current_task = none ∧
    (run_batch_analysis env s).state.run.is_running = false ∧
    (run_batch_analysis env s).state.run.current_task = none ∧
    (run_full_scan env s).result.error
        = (full_scan_body env ⟨⟨true, some "full_scan", s.run.progress⟩, s.db⟩).err ∧
    (run_batch_analysis env s).result.error
        = (match (batch_body env s).err with
           | some msg => some msg
           | none => none) := by
  simp only [run_full_scan, run_batch_analysis, h]
  refine ⟨rfl, rfl, rfl, rfl, rfl, ?_⟩
  cases (batch_body env s).err <;> rfl

/-- Witness for C4 at a state whose scan raises (the category-count
AttributeError), showing the released slot and the recorded error. -/
theorem c4_run_slot_witness :
    (run_full_scan benignEnv sLlm).state.run.is_running = false ∧
    (run_full_scan benignEnv sLlm).state.run.current_task = none ∧
    (run_batch_analysis benignEnv sLlm).state.run.is_running = false ∧
    (run_batch_analysis benignEnv sLlm).state.run.current_task = none ∧
    (run_full_scan benignEnv sLlm).result.error
        = (full_scan_body benignEnv ⟨⟨true, some "full_scan", sLlm.run.progress⟩, sLlm.db⟩).err ∧
    (run_batch_analysis benignEnv sLlm).result.error
        = (match (batch_body benignEnv sLlm).err with
           | some msg => some msg
           | none => none) :=
  c4_run_slot_released benignEnv sLlm rfl

/-! ## C9: search_remote deduplicates identifiers -/

/-- The per-page item loop preserves the no-duplicate-identifier invariant of
the session accumulator. -/
theorem remote_inner_nodup (wants : Bool) (lim : Nat) :
    ∀ (items : List ApiItem) (acc : List Project),
      (acc.map fun p => p.id).Nodup →
      ((remote_inner wants lim items acc).map fun p => p.id).Nodup := by
  intro items
  induction items with
  | nil => intro acc h; simpa [remote_inner] using h
  | cons it rest ih =>
    intro acc h
    by_cases h1 : lim ≤ acc.length
    · simpa [remote_inner, h1] using h
    · by_cases h2 : (!wants && EXCLUDE_KEYWORDS.any fun bad =>
          containsSub (pyLower it.name) bad || containsSub (pyLower it.description) bad) = true
      · simpa [remote_inner, h1, h2] using ih acc h
      · by_cases h3 : (acc.any fun p => p.id == toString it.id) = true
        · simpa [remote_inner, h1, h2, h3] using ih acc h
        · have hnm : toString it.id ∉ acc.map fun p : Project => p.id := by
            intro hm
            rcases List.mem_map.mp hm with ⟨q, hq, hid⟩
            exact h3 (List.any_eq_true.mpr ⟨q, hq, by simp [hid]⟩)
          have hacc : ((acc ++
              [{ parse_repo it "remote_search" with
                   ai_rag_summary := some "GitHub Live Result" }]).map fun p : Project => p.id).Nodup := by
            simp only [List.map_append, List.map_cons, List.map_nil]
            rw [← List.concat_eq_append]
            exact List.Nodup.concat hnm h
          simpa [remote_inner, h1, h2, h3] using
            ih (acc ++ [{ parse_repo it "remote_search" with
                            ai_rag_summary := some "GitHub Live Result" }]) hacc

/-- The page loop preserves the no-duplicate-identifier invariant. -/
theorem remote_pages_nodup (env : RemoteEnv) (wants : Bool) (lim : Nat) :
    ∀ (fuel page : Nat) (acc : List Project),
      (acc.map fun p => p.id).Nodup →
      ((remote_pages env wants lim page fuel acc).map fun p => p.id).Nodup := by
  intro fuel
  induction fuel with
  | zero => intro page acc h; simpa [remote_pages] using h
  | succ f ih =>
    intro page acc h
    by_cases h1 : lim ≤ acc.length
    · simpa [remote_pages, h1] using h
    · cases hp : env.page page with
      | net => simpa [remote_pages, h1, hp] using h
      | http status items =>
        by_cases h2 : (status == 403 || status == 429) = true
        · simpa [remote_pages, h1, hp, h2] using h
        · by_cases h3 : 400 ≤ status
          · simpa [remote_pages, h1, hp, h2, h3] using h
          · by_cases h4 : items.isEmpty = true
            · simpa [remote_pages, h1, hp, h2, h3, h4] using h
            · simpa [remote_pages, h1, hp, h2, h3, h4] using
                ih (page + 1) (remote_inner wants lim items acc)
                  (remote_inner_nodup wants lim items acc h)

/-- C9: for every paginated fetch source, query, and limit, the list returned
by search_remote carries each repository identifier at most once — repeated
identifiers across (or within) pages are deduplicated within the session. -/
theorem c9_search_remote_nodup (env : RemoteEnv) (q : String) (lim : Nat) :
    ((search_remote env q lim).map fun p => p.id).Nodup := by
  unfold search_remote
  exact remote_pages_nodup env (user_wants_tutorial q) lim 3 1 [] (by simp)

/-! ## C1: the single-flight gate opens in the middle of run_full_scan -/

/-- C1 (refuting evidence): run_full_scan claims the run slot, but its step 0
calls run_news_scan, whose finally block resets is_running to false and
current_task to None; consequently at observation point 3 of a concrete
execution — after the news step, before the per-category crawl — the run slot
is already released (and during step 0 current_task is news_scan, not
full_scan), and a run_batch_analysis trigger arriving in that window passes
the gate and completes instead of being rejected as busy. -/
theorem c1_gate_opens_mid_scan :
    (run_full_scan benignEnv idle0).obs.get? 3
        = some ⟨false, none, ⟨17, 0, "Crawling"⟩⟩ ∧
    3 + 1 < (run_full_scan benignEnv idle0).obs.length ∧
    (run_full_scan benignEnv idle0).obs.get? 1
        = some ⟨true, some "news_scan", ⟨0, 0, ""⟩⟩ ∧
    (run_batch_analysis benignEnv ⟨⟨false, none, ⟨17, 0, "Crawling"⟩⟩, []⟩).result.status
        = some "completed" := by
  refine ⟨rfl, by decide, rfl, rfl⟩

/-! ## C8: the ascending-count category ordering crashes on any counted category -/

/-- Category-fetch collaborator calls of the crawl step. -/
def is_cat_fetch : Call → Bool
  | Call.searchKeywords _ => true
  | Call.trendingCall => true
  | Call.newReleasesCall => true
  | _ => false

/-- C8 (refuting evidence): get_all_categories_summary maps each category to a
plain integer count, but run_full_scan reads it with
cat_counts.get(cat_id, empty-dict).get(count-key, 0); as soon as any
configured category has at least one stored row (here llm_rag with count 1)
the inner attribute access is on an int and raises AttributeError, so the
scan aborts with that error before fetching a single category — no
ascending-count fetch order is ever realized. -/
theorem c8_category_order_crashes :
    (run_full_scan benignEnv sLlm).result.error
        = some "AttributeError: int object has no attribute get" ∧
    (run_full_scan benignEnv sLlm).result.crawl = [] ∧
    (run_full_scan benignEnv sLlm).calls.filter is_cat_fetch = [] ∧
    summaryLookup (get_all_categories_summary sLlm.db) "llm_rag" = some 1 := by
  refine ⟨rfl, rfl, rfl, rfl⟩

/-! ## C2: a fully 120b-analyzed entry triggers no further collaborator calls -/

/-- The target of a generation or capture collaborator call, if any (README
fetch and catalog-store round-trips are neither). -/
def genCapOf : Call → Option String
  | Call.analyze i => some i
  | Call.rag i => some i
  | Call.capture i => some i
  | Call.vision i => some i
  | Call.tutorial i => some i
  | _ => none

/-- Every call issued by the action interpreter comes from a call action of
the interpreted sequence. -/
theorem run_acts_calls_mem (env : Env) :
    ∀ (acts : List Act) (db : Db) (c : Call),
      c ∈ (run_acts env acts db).2.1 → Act.call c ∈ acts := by
  intro acts
  induction acts with
  | nil => intro db c hc; simp [run_acts] at hc
  | cons a rest ih =>
    intro db c hc
    cases a with
    | call c0 =>
      rw [run_acts] at hc
      rcases List.mem_cons.mp hc with h | h
      · exact h ▸ List.mem_cons_self _ _
      · exact List.mem_cons_of_mem _ (ih db c h)
    | ev e =>
      rw [run_acts] at hc
      exact List.mem_cons_of_mem _ (ih db c hc)
    | write w upd =>
      by_cases hf : env.db_fail w = true
      · simp [run_acts, hf] at hc
      · simp only [run_acts, hf, Bool.false_eq_true, if_false] at hc
        exact List.mem_cons_of_mem _ (ih (upd db) c hc)

/-- The only collaborator call of stage 1 is the analyzer on this entry. -/
theorem stage1_calls (env : Env) (p : Project) (readme : Option String) (b120 : Bool)
    (c : Call) (h : Act.call c ∈ stage1_analysis env p readme b120) :
    c = Call.analyze p.id := by
  unfold stage1_analysis at h
  split at h
  · simp at h
  · rcases List.mem_cons.mp h with h | h
    · cases h; rfl
    · simp at h

/-- The only collaborator call of stage 1.1 is the RAG generator on this entry. -/
theorem stage11_calls (env : Env) (p : Project) (readme : Option String) (b120 : Bool)
    (c : Call) (h : Act.call c ∈ stage11_rag env p readme b120) :
    c = Call.rag p.id := by
  unfold stage11_rag at h
  split at h
  · rcases List.mem_append.mp h with h | h
    · rcases List.mem_cons.mp h with h | h
      · cases h; rfl
      · simp at h
    · split at h <;> simp at h
  · simp at h

/-- The only collaborator call of stage 2 is the screenshot capture on this
entry. -/
theorem stage2_calls (p : Project) (tag : String) (cap : Option String)
    (c : Call) (h : Act.call c ∈ stage2_shot p tag cap) :
    c = Call.capture p.id := by
  unfold stage2_shot at h
  split at h
  · simp at h
  · rcases List.mem_append.mp h with h | h
    · rcases List.mem_cons.mp h with h | h
      · simp at h
      · rcases List.mem_cons.mp h with h | h
        · cases h; rfl
        · simp at h
    · split at h <;> simp at h

/-- The only collaborator call of stage 3 is the vision model on this entry. -/
theorem stage3_calls (p : Project) (tag : String) (sp : Option String) (vs : String)
    (c : Call) (h : Act.call c ∈ stage3_vision p tag sp vs) :
    c = Call.vision p.id := by
  unfold stage3_vision at h
  split at h
  · rcases List.mem_cons.mp h with h | h
    · simp at h
    · rcases List.mem_cons.mp h with h | h
      · cases h; rfl
      · simp at h
  · simp at h

/-- The only collaborator call of stage 4 is the tutorial generator on this
entry. -/
theorem stage4_calls (env : Env) (p : Project) (tag : String) (readme : Option String)
    (vs : String) (c : Call) (h : Act.call c ∈ stage4_tutorial env p tag readme vs) :
    c = Call.tutorial p.id := by
  unfold stage4_tutorial at h
  rcases List.mem_cons.mp h with h | h
  · simp at h
  · rcases List.mem_cons.mp h with h | h
    · cases h; rfl
    · rcases List.mem_cons.mp h with h | h
      · simp at h
      · simp at h

/-- Every call action of a batch entry is either the README fetch of this
entry or a generation/capture call targeting this entry id. -/
theorem entry_acts_calls (env : Env) (p : Project) (idx total : Nat) (c : Call)
    (h : Act.call c ∈ entry_acts env p idx total) :
    c = Call.readme p.full_name ∨ genCapOf c = some p.id := by
  simp only [entry_acts, List.mem_append] at h
  rcases h with ((((h | h) | h) | h) | h) | h
  · rcases List.mem_cons.mp h with h | h
    · simp at h
    · rcases List.mem_cons.mp h with h | h
      · cases h; exact Or.inl rfl
      · simp at h
  · have := stage1_calls _ _ _ _ _ h
    subst this; exact Or.inr rfl
  · have := stage11_calls _ _ _ _ _ h
    subst this; exact Or.inr rfl
  · have := stage2_calls _ _ _ _ h
    subst this; exact Or.inr rfl
  · have := stage3_calls _ _ _ _ _ h
    subst this; exact Or.inr rfl
  · have := stage4_calls _ _ _ _ _ _ h
    subst this; exact Or.inr rfl

/-- Every generation/capture call issued by the batch entry loop targets one
of the looped-over backlog entries. -/
theorem batch_loop_calls (env : Env) (total : Nat) :
    ∀ (items : List (Nat × Project)) (db : Db) (count : Nat) (prog : Progress)
      (c : Call) (pid : String),
      c ∈ (batch_loop env total items db count prog).calls →
      genCapOf c = some pid →
      ∃ q, q ∈ items.map Prod.snd ∧ q.id = pid := by
  intro items
  induction items with
  | nil => intro db count prog c pid hc _; simp [batch_loop] at hc
  | cons ip rest ih =>
    rcases ip with ⟨idx, p⟩
    intro db count prog c pid hc hg
    by_cases hs : env.stop_at idx = true
    · simp [batch_loop, hs] at hc
    · simp only [batch_loop, hs, Bool.false_eq_true, if_false] at hc
      split at hc
      · have hact := run_acts_calls_mem env _ db c hc
        rcases entry_acts_calls env p idx total c hact with h | h
        · subst h; simp [genCapOf] at hg
        · rw [h] at hg
          exact ⟨p, by simp, by injection hg⟩
      · rcases List.mem_append.mp hc with h | h
        · have hact := run_acts_calls_mem env _ db c h
          rcases entry_acts_calls env p idx total c hact with h2 | h2
          · subst h2; simp [genCapOf] at hg
          · rw [h2] at hg
            exact ⟨p, by simp, by injection hg⟩
        · rcases ih _ _ _ c pid h hg with ⟨q, hq, hq2⟩
          exact ⟨q, by simp [List.mem_cons]; right; simpa using hq, hq2⟩

/-- The backlog returned by get_projects_needing_analysis is drawn from the
catalog. -/
theorem pending_subset (db : Db) (lim : Nat) :
    ∀ p ∈ get_projects_needing_analysis db lim, p ∈ db := by
  intro p hp
  simp only [get_projects_needing_analysis] at hp
  rcases List.mem_append.mp hp with h | h
  · exact List.mem_of_mem_filter (List.take_subset _ _ h)
  · split at h
    · exact List.mem_of_mem_filter (List.take_subset _ _ h)
    · simp at h

/-- An entry whose summary is populated and whose producing-model identifier
ilike-matches 120b is excluded from the backlog by both halves of the query. -/
theorem pending_excludes (db : Db) (lim : Nat) (p : Project)
    (hsum : p.ai_summary.isSome = true) (m : String) (hm : p.ai_model_name = some m)
    (hil : ilike120b m = true) :
    p ∉ get_projects_needing_analysis db lim := by
  intro hp
  simp only [get_projects_needing_analysis] at hp
  rcases List.mem_append.mp hp with h | h
  · have h2 := (List.mem_filter.mp (List.take_subset _ _ h)).2
    rw [Option.isNone_iff_eq_none] at h2
    rw [h2] at hsum
    simp at hsum
  · split at h
    · have h2 := (List.mem_filter.mp (List.take_subset _ _ h)).2
      rw [hm] at h2
      simp [hil] at h2
    · simp at h

/-- C2: invoking run_batch_analysis on a catalog whose entry p has all AI
fields populated by the current (120b) producing model issues zero
generation or capture collaborator calls for p: p is not even selected into
the backlog, so every stage is skipped for it on this second pass. -/
theorem c2_second_pass_no_calls (env : Env) (s : MState) (p : Project)
    (huniq : (s.db.map fun q : Project => q.id).Nodup = true)
    (hmem : p ∈ s.db)
    (hsum : p.ai_summary.isSome = true)
    (m : String) (hm : p.ai_model_name = some m) (hil : ilike120b m = true)
    (hrag : isTruthy p.ai_rag_summary = true)
    (hshot : isTruthy p.screenshot = true)
    (hvis : p.ai_visual_summary.isSome = true)
    (htut : p.ai_tutorial.isSome = true) :
    p ∉ get_projects_needing_analysis s.db 100 ∧
    (run_batch_analysis env s).calls.filter (fun c => genCapOf c == some p.id) = [] := by
  have hexc := pending_excludes s.db 100 p hsum m hm hil
  refine ⟨hexc, ?_⟩
  rw [List.filter_eq_nil_iff]
  intro c hc hg
  rw [beq_iff_eq] at hg
  by_cases hrun : s.run.is_running = true
  · simp [run_batch_analysis, hrun] at hc
  · simp only [run_batch_analysis, hrun, Bool.false_eq_true, if_false] at hc
    simp only [batch_body] at hc
    split at hc
    · simp at hc
      subst hc
      simp [genCapOf] at hg
    · rcases List.mem_cons.mp hc with h | h
      · subst h; simp [genCapOf] at hg
      · rcases batch_loop_calls env _ _ _ _ _ c p.id h hg with ⟨q, hq, hqid⟩
        rw [List.enumFrom_map_snd] at hq
        have hqdb := pending_subset s.db 100 q hq
        have : q = p := List.inj_on_of_nodup_map (by simpa using huniq) hqdb hmem hqid
        subst this
        exact hexc hq

/-- Idle state carrying both the fully analyzed 120b entry and a fresh one. -/
def sBoth : MState := ⟨⟨false, none, ⟨0, 0, ""⟩⟩, [projLlm, projNew]⟩

/-- Witness for C2 at a concrete catalog: the 120b-complete entry is outside
the backlog and receives zero generation or capture calls. -/
theorem c2_second_pass_witness :
    projLlm ∉ get_projects_needing_analysis sBoth.db 100 ∧
    (run_batch_analysis benignEnv sBoth).calls.filter
        (fun c => genCapOf c == some projLlm.id) = [] :=
  c2_second_pass_no_calls benignEnv sBoth projLlm (by decide) (by decide) rfl
    "openai/gpt-oss-120b" rfl (by decide) rfl rfl rfl rfl

/-! ## C3: a per-entry failure aborts the whole batch (claim refuted) -/

/-- A second fresh, unanalyzed catalog row. -/
def projNew3 : Project :=
  ⟨"3", "proj3", "owner/proj3", "manual", 7, 2, "d3", "https://github.com/owner/proj3",
   none, none, [], [], none, none, none, none, none, none, none⟩

/-- Environment in which the analysis write for entry 2 raises (a store
round-trip failure while processing the first backlog entry). -/
def envC3 : Env :=
  { benignEnv with db_fail := fun w => w == DbW.updateAnalysis "2" }

/-- Idle state with two backlog entries. -/
def sC3 : MState := ⟨⟨false, none, ⟨0, 0, ""⟩⟩, [projNew, projNew3]⟩

/-- C3 (counterexample): with two pending entries, a store failure while
processing the first is NOT caught per entry: the batch returns an error
result (no completed status), and the second pending entry is never
processed — zero generation or capture calls target it — refuting the claim
that remaining pending entries are still processed. -/
theorem c3_counterexample_batch_aborted :
    projNew3 ∈ get_projects_needing_analysis sC3.db 100 ∧
    Call.analyze "2" ∈ (run_batch_analysis envC3 sC3).calls ∧
    (run_batch_analysis envC3 sC3).result.error = some "DbError" ∧
    (run_batch_analysis envC3 sC3).result.status = none ∧
    (run_batch_analysis envC3 sC3).calls.filter
        (fun c => genCapOf c == some projNew3.id) = [] := by
  refine ⟨by decide, by decide, rfl, rfl, rfl⟩

/-- C3 (amended): a failure while processing one entry is caught at the BATCH
level, not per entry: the exception propagates out of the entry loop (the
calls of the loop stop at the failing entry, so later pending entries are not
processed), and the top-level handler logs the failure as an error event,
returns it in the error field, and the finally block still releases the run
slot. -/
theorem c3_entry_failure_aborts_batch (env : Env) (total idx count : Nat)
    (p : Project) (rest : List (Nat × Project)) (db : Db) (prog : Progress)
    (msg : String) (s : MState) :
    (env.stop_at idx = false →
      (run_acts env (entry_acts env p idx total) db).2.2.2 = some msg →
      (batch_loop env total ((idx, p) :: rest) db count prog).err = some msg ∧
      (batch_loop env total ((idx, p) :: rest) db count prog).calls
          = (run_acts env (entry_acts env p idx total) db).2.1) ∧
    (s.run.is_running = false → (batch_body env s).err = some msg →
      (run_batch_analysis env s).result.error = some msg ∧
      Event.mk ("Batch analysis error: " ++ msg) "error" ∈ (run_batch_analysis env s).events ∧
      (run_batch_analysis env s).state.run.is_running = false ∧
      (run_batch_analysis env s).state.run.current_task = none) := by
  constructor
  · intro hstop hfail
    simp only [batch_loop, hstop, Bool.false_eq_true, if_false]
    rw [hfail]
    exact ⟨by simp, by simp⟩
  · intro hrun hbody
    simp only [run_batch_analysis, hrun, Bool.false_eq_true, if_false]
    rw [hbody]
    refine ⟨rfl, ?_, trivial, trivial⟩
    exact List.mem_append.mpr (Or.inr (List.mem_singleton.mpr rfl))

/-- Witness for the amended C3 at the concrete two-entry backlog. -/
theorem c3_entry_failure_witness :
    ((batch_loop envC3 2 [(1, projNew), (2, projNew3)] sC3.db 0 ⟨2, 0, "Batch Analysis"⟩).err
        = some "DbError" ∧
     (batch_loop envC3 2 [(1, projNew), (2, projNew3)] sC3.db 0 ⟨2, 0, "Batch Analysis"⟩).calls
        = (run_acts envC3 (entry_acts envC3 projNew 1 2) sC3.db).2.1) ∧
    ((run_batch_analysis envC3 sC3).result.error = some "DbError" ∧
     Event.mk ("Batch analysis error: " ++ "DbError") "error"
        ∈ (run_batch_analysis envC3 sC3).events ∧
     (run_batch_analysis envC3 sC3).state.run.is_running = false ∧
     (run_batch_analysis envC3 sC3).state.run.current_task = none) :=
  ⟨(c3_entry_failure_aborts_batch envC3 2 1 0 projNew [(2, projNew3)] sC3.db
      ⟨2, 0, "Batch Analysis"⟩ "DbError" sC3).1 rfl rfl,
   (c3_entry_failure_aborts_batch envC3 2 1 0 projNew [(2, projNew3)] sC3.db
      ⟨2, 0, "Batch Analysis"⟩ "DbError" sC3).2 rfl rfl⟩

/-! ## C7: progress counters -/

/-- Progress bookkeeping of the batch entry loop: the total is never touched;
when the initial headroom done + #items ≤ total holds, every snapshot
satisfies done ≤ total and the final done stays within total; and an
uncancelled error-free loop ends with done advanced by exactly #items. -/
theorem batch_loop_progress (env : Env) (total : Nat) :
    ∀ (items : List (Nat × Project)) (db : Db) (count : Nat) (prog : Progress),
      (batch_loop env total items db count prog).prog.total = prog.total ∧
      (prog.done + items.length ≤ prog.total →
        (∀ pr ∈ (batch_loop env total items db count prog).progObs, pr.done ≤ pr.total) ∧
        (batch_loop env total items db count prog).prog.done ≤ prog.total) ∧
      ((∀ i, env.stop_at i = false) →
        (batch_loop env total items db count prog).err = none →
        (batch_loop env total items db count prog).prog.done = prog.done + items.length) := by
  intro items
  induction items with
  | nil =>
    intro db count prog
    refine ⟨rfl, fun h => ⟨?_, ?_⟩, fun _ _ => rfl⟩
    · intro pr hpr; simp [batch_loop] at hpr
    · simp only [batch_loop]
      omega
  | cons ip rest ih =>
    rcases ip with ⟨idx, p⟩
    intro db count prog
    by_cases hs : env.stop_at idx = true
    · refine ⟨by simp [batch_loop, hs], fun h => ⟨?_, ?_⟩, fun hns _ => ?_⟩
      · intro pr hpr; simp [batch_loop, hs] at hpr
      · simp only [batch_loop, hs, if_true]
        simp only [List.length_cons] at h
        omega
      · exact absurd (hns idx) (by simp [hs])
    · simp only [batch_loop, hs, Bool.false_eq_true, if_false]
      cases herr : (run_acts env (entry_acts env p idx total) db).2.2.2 with
      | some msg =>
        simp only [herr]
        refine ⟨trivial, fun h => ⟨?_, ?_⟩, fun _ hc => by simp at hc⟩
        · intro pr hpr
          simp only [List.mem_singleton] at hpr
          subst hpr
          simp only [List.length_cons] at h
          show prog.done ≤ prog.total
          omega
        · simp only [List.length_cons] at h
          show prog.done ≤ prog.total
          omega
      | none =>
        simp only [herr]
        have ihr := ih ((run_acts env (entry_acts env p idx total) db).1) (count + 1)
          { prog with current := "Analyzing: " ++ p.name, done := prog.done + 1 }
        refine ⟨ihr.1, fun h => ⟨?_, ?_⟩, fun hns hcomp => ?_⟩
        · intro pr hpr
          simp only [List.length_cons] at h
          rcases List.mem_cons.mp hpr with hpr | hpr
          · subst hpr
            show prog.done ≤ prog.total
            omega
          · rcases List.mem_cons.mp hpr with hpr | hpr
            · subst hpr
              show prog.done + 1 ≤ prog.total
              omega
            · exact (ihr.2.1 (by simp only [List.length_cons]; omega)).1 pr hpr
        · simp only [List.length_cons] at h
          exact (ihr.2.1 (by simp only [List.length_cons]; omega)).2
        · have h2 : (batch_loop env total rest ((run_acts env (entry_acts env p idx total) db).1)
              (count + 1)
              { prog with current := "Analyzing: " ++ p.name, done := prog.done + 1 }).prog.done
              = prog.done + 1 + rest.length := ihr.2.2 hns hcomp
          simp only [List.length_cons]
          omega

/-- Progress bookkeeping of the per-category crawl loop: total untouched;
under initial headroom every snapshot satisfies done ≤ total; an error-free
loop ends with done advanced by exactly the category count. -/
theorem crawl_loop_progress (env : Env) :
    ∀ (l : List (CatCfg × Nat)) (db : Db) (prog : Progress),
      (crawl_loop env l db prog).prog.total = prog.total ∧
      (prog.done + l.length ≤ prog.total →
        (∀ pr ∈ (crawl_loop env l db prog).progObs, pr.done ≤ pr.total) ∧
        (crawl_loop env l db prog).prog.done ≤ prog.total) ∧
      ((crawl_loop env l db prog).err = none →
        (crawl_loop env l db prog).prog.done = prog.done + l.length) := by
  intro l
  induction l with
  | nil =>
    intro db prog
    refine ⟨rfl, fun h => ⟨?_, ?_⟩, fun _ => rfl⟩
    · intro pr hpr; simp [crawl_loop] at hpr
    · simp only [crawl_loop]
      omega
  | cons cc rest ih =>
    rcases cc with ⟨c, cnt⟩
    intro db prog
    simp only [crawl_loop]
    cases herr : (upsert_all env (cat_fetch_projects env c) db).2.2 with
    | some msg =>
      simp only [herr]
      refine ⟨trivial, fun h => ⟨?_, ?_⟩, fun hc => by simp at hc⟩
      · intro pr hpr
        simp only [List.mem_singleton] at hpr
        subst hpr
        simp only [List.length_cons] at h
        show prog.done ≤ prog.total
        omega
      · simp only [List.length_cons] at h
        show prog.done ≤ prog.total
        omega
    | none =>
      simp only [herr]
      have ihr := ih ((upsert_all env (cat_fetch_projects env c) db).1)
        { prog with
            current := "Crawling: " ++ c.name ++ " (Current: " ++ toString cnt ++ ")",
            done := prog.done + 1 }
      refine ⟨ihr.1, fun h => ⟨?_, ?_⟩, fun hcomp => ?_⟩
      · intro pr hpr
        simp only [List.length_cons] at h
        rcases List.mem_cons.mp hpr with hpr | hpr
        · subst hpr
          show prog.done ≤ prog.total
          omega
        · rcases List.mem_cons.mp hpr with hpr | hpr
          · subst hpr
            show prog.done + 1 ≤ prog.total
            omega
          · exact (ihr.2.1 (by simp only [List.length_cons]; omega)).1 pr hpr
      · simp only [List.length_cons] at h
        exact (ihr.2.1 (by simp only [List.length_cons]; omega)).2
      · have h2 : (crawl_loop env rest ((upsert_all env (cat_fetch_projects env c) db).1)
            { prog with
                current := "Crawling: " ++ c.name ++ " (Current: " ++ toString cnt ++ ")",
                done := prog.done + 1 }).prog.done = prog.done + 1 + rest.length :=
          ihr.2.2 hcomp
        simp only [List.length_cons]
        omega

/-- An error-free nonempty crawl loop records a snapshot whose done counter
has advanced by the full category count (the last per-category increment). -/
theorem crawl_loop_obs_final (env : Env) :
    ∀ (l : List (CatCfg × Nat)) (db : Db) (prog : Progress),
      (crawl_loop env l db prog).err = none → l ≠ [] →
      ∃ pr ∈ (crawl_loop env l db prog).progObs,
        pr.total = prog.total ∧ pr.done = prog.done + l.length := by
  intro l
  induction l with
  | nil => intro db prog _ hne; exact absurd rfl hne
  | cons cc rest ih =>
    rcases cc with ⟨c, cnt⟩
    intro db prog herr _
    simp only [crawl_loop] at herr ⊢
    cases hup : (upsert_all env (cat_fetch_projects env c) db).2.2 with
    | some msg => rw [hup] at herr; simp at herr
    | none =>
      rw [hup] at herr
      dsimp only at herr ⊢
      by_cases hrest : rest = []
      · subst hrest
        refine ⟨_, List.mem_cons_of_mem _ (List.mem_cons_self _ _), rfl, ?_⟩
        show prog.done + 1 = prog.done + 1
        rfl
      · rcases ih _ _ herr hrest with ⟨pr, hmem, htot, hdone⟩
        refine ⟨pr, List.mem_cons_of_mem _ (List.mem_cons_of_mem _ hmem), ?_, ?_⟩
        · exact htot
        · rw [hdone]
          show prog.done + 1 + rest.length = prog.done + (rest.length + 1)
          omega

/-- Progress bookkeeping of the step-2 analysis loop of run_full_scan. -/
theorem scan_analyze_loop_progress (env : Env) :
    ∀ (l : List Project) (db : Db) (prog : Progress),
      (scan_analyze_loop env l db prog).prog.total = prog.total ∧
      (prog.done + l.length ≤ prog.total →
        (∀ pr ∈ (scan_analyze_loop env l db prog).progObs, pr.done ≤ pr.total) ∧
        (scan_analyze_loop env l db prog).prog.done ≤ prog.total) ∧
      ((scan_analyze_loop env l db prog).err = none →
        (scan_analyze_loop env l db prog).prog.done = prog.done + l.length) := by
  intro l
  induction l with
  | nil =>
    intro db prog
    refine ⟨rfl, fun h => ⟨?_, ?_⟩, fun _ => rfl⟩
    · intro pr hpr; simp [scan_analyze_loop] at hpr
    · simp only [scan_analyze_loop]
      omega
  | cons p rest ih =>
    intro db prog
    simp only [scan_analyze_loop]
    by_cases hf : env.db_fail (DbW.updateAnalysis p.id) = true
    · simp only [hf, if_true]
      refine ⟨trivial, fun h => ⟨?_, ?_⟩, fun hc => by simp at hc⟩
      · intro pr hpr
        simp only [List.mem_singleton] at hpr
        subst hpr
        simp only [List.length_cons] at h
        show prog.done ≤ prog.total
        omega
      · simp only [List.length_cons] at h
        show prog.done ≤ prog.total
        omega
    · simp only [hf, Bool.false_eq_true, if_false]
      have ihr := ih (update_project_analysis db p.id (env.analyze p (env.readme p.full_name)))
        { prog with current := "Analyzing: " ++ p.name, done := prog.done + 1 }
      refine ⟨ihr.1, fun h => ⟨?_, ?_⟩, fun hcomp => ?_⟩
      · intro pr hpr
        simp only [List.length_cons] at h
        rcases List.mem_cons.mp hpr with hpr | hpr
        · subst hpr
          show prog.done ≤ prog.total
          omega
        · rcases List.mem_cons.mp hpr with hpr | hpr
          · subst hpr
            show prog.done + 1 ≤ prog.total
            omega
          · exact (ihr.2.1 (by simp only [List.length_cons]; omega)).1 pr hpr
      · simp only [List.length_cons] at h
        exact (ihr.2.1 (by simp only [List.length_cons]; omega)).2
      · have h2 : (scan_analyze_loop env rest
            (update_project_analysis db p.id (env.analyze p (env.readme p.full_name)))
            { prog with current := "Analyzing: " ++ p.name, done := prog.done + 1 }).prog.done
            = prog.done + 1 + rest.length := ihr.2.2 hcomp
        simp only [List.length_cons]
        omega

/-- run_news_scan observes exactly its slot claim and its finally release,
both carrying the caller progress unchanged. -/
theorem run_news_scan_obs (env : Env) (s : MState) :
    (run_news_scan env s).obs =
      [⟨true, some "news_scan", s.run.progress⟩, ⟨false, none, s.run.progress⟩] := by
  simp only [run_news_scan]
  split <;> rfl

/-- run_news_scan always returns with the run slot released and the caller
progress unchanged. -/
theorem run_news_scan_state (env : Env) (s : MState) :
    (run_news_scan env s).state.run = ⟨false, none, s.run.progress⟩ := by
  simp only [run_news_scan]
  split <;> rfl

/-- A successful count lookup covers every configured category. -/
theorem build_counts_length (summary : List (String × Nat)) :
    ∀ (cats : List CatCfg) (l : List (CatCfg × Nat)),
      build_counts summary cats = Except.ok l → l.length = cats.length := by
  intro cats
  induction cats with
  | nil =>
    intro l h
    simp only [build_counts] at h
    cases h
    rfl
  | cons c rest ih =>
    intro l h
    simp only [build_counts] at h
    cases hl : summaryLookup summary c.id with
    | some n => rw [hl] at h; simp at h
    | none =>
      rw [hl] at h
      cases hb : build_counts summary rest with
      | error e => rw [hb] at h; simp at h
      | ok tl =>
        rw [hb] at h
        cases h
        simp [ih tl hb]

/-- Stable insertion grows the list by one. -/
theorem insert_sorted_length (x : CatCfg × Nat) :
    ∀ l : List (CatCfg × Nat), (insert_sorted x l).length = l.length + 1 := by
  intro l
  induction l with
  | nil => rfl
  | cons y ys ih =>
    simp only [insert_sorted]
    split
    · rfl
    · simp [ih]

/-- The stable sort preserves the number of categories. -/
theorem sort_by_count_length (l : List (CatCfg × Nat)) :
    (sort_by_count l).length = l.length := by
  suffices h : ∀ (l acc : List (CatCfg × Nat)),
      (l.foldl (fun acc x => insert_sorted x acc) acc).length = acc.length + l.length by
    simpa [sort_by_count] using h l []
  intro l
  induction l with
  | nil => intro acc; simp
  | cons x xs ih =>
    intro acc
    simp only [List.foldl_cons]
    rw [ih (insert_sorted x acc), insert_sorted_length]
    simp only [List.length_cons]
    omega

/-- Progress bookkeeping of the whole run_batch_analysis try block: every
snapshot satisfies done ≤ total (given a well-formed inherited progress), the
final progress stays within its total, and an uncancelled error-free batch
ends with done equal to total. -/
theorem batch_body_spec (env : Env) (s : MState)
    (hp : s.run.progress.done ≤ s.run.progress.total) :
    (∀ pr ∈ (batch_body env s).progObs, pr.done ≤ pr.total) ∧
    (batch_body env s).prog.done ≤ (batch_body env s).prog.total ∧
    ((∀ i, env.stop_at i = false) → (batch_body env s).err = none →
      (batch_body env s).prog.done = (batch_body env s).prog.total) := by
  simp only [batch_body]
  by_cases hqf : env.db_fail DbW.queryPending = true
  · simp only [hqf, if_true]
    exact ⟨by intro pr hpr; simp at hpr, hp, fun _ hc => by simp at hc⟩
  · simp only [hqf, Bool.false_eq_true, if_false]
    have hb := batch_loop_progress env (get_projects_needing_analysis s.db 100).length
      (List.enumFrom 1 (get_projects_needing_analysis s.db 100)) s.db 0
      ⟨(get_projects_needing_analysis s.db 100).length, 0, "Batch Analysis"⟩
    have hlen : (List.enumFrom 1 (get_projects_needing_analysis s.db 100)).length
        = (get_projects_needing_analysis s.db 100).length := List.enumFrom_length
    have h1 : (batch_loop env (get_projects_needing_analysis s.db 100).length
        (List.enumFrom 1 (get_projects_needing_analysis s.db 100)) s.db 0
        ⟨(get_projects_needing_analysis s.db 100).length, 0, "Batch Analysis"⟩).prog.total
        = (get_projects_needing_analysis s.db 100).length := hb.1
    have hroom : (0 : Nat) + (List.enumFrom 1 (get_projects_needing_analysis s.db 100)).length
        ≤ (get_projects_needing_analysis s.db 100).length := by omega
    refine ⟨?_, ?_, ?_⟩
    · intro pr hpr
      rcases List.mem_cons.mp hpr with hpr | hpr
      · subst hpr
        exact Nat.zero_le _
      · exact (hb.2.1 hroom).1 pr hpr
    · have h2 : (batch_loop env (get_projects_needing_analysis s.db 100).length
          (List.enumFrom 1 (get_projects_needing_analysis s.db 100)) s.db 0
          ⟨(get_projects_needing_analysis s.db 100).length, 0, "Batch Analysis"⟩).prog.done
          ≤ (get_projects_needing_analysis s.db 100).length := (hb.2.1 hroom).2
      omega
    · intro hns herr2
      have h3 : (batch_loop env (get_projects_needing_analysis s.db 100).length
          (List.enumFrom 1 (get_projects_needing_analysis s.db 100)) s.db 0
          ⟨(get_projects_needing_analysis s.db 100).length, 0, "Batch Analysis"⟩).prog.done
          = 0 + (List.enumFrom 1 (get_projects_needing_analysis s.db 100)).length :=
        hb.2.2 hns herr2
      omega

/-- Progress bookkeeping of the whole run_full_scan try block: every snapshot
satisfies done ≤ total (given a well-formed inherited progress), the final
progress stays within its total, and an error-free scan ends with the
analysis phase complete (done = total) after a crawl-phase observation whose
done counter equals the full category count. -/
theorem full_scan_body_spec (env : Env) (s : MState)
    (hp : s.run.progress.done ≤ s.run.progress.total) :
    (∀ o ∈ (full_scan_body env s).obs, o.progress.done ≤ o.progress.total) ∧
    (full_scan_body env s).prog.done ≤ (full_scan_body env s).prog.total ∧
    ((full_scan_body env s).err = none →
      (full_scan_body env s).prog.done = (full_scan_body env s).prog.total ∧
      ∃ o ∈ (full_scan_body env s).obs,
        o.progress.total = CATEGORIES.length ∧ o.progress.done = CATEGORIES.length) := by
  simp only [full_scan_body, run_news_scan_obs, run_news_scan_state]
  cases hbc : build_counts (get_all_categories_summary (run_news_scan env s).state.db)
      CATEGORIES with
  | error msg =>
    dsimp only
    refine ⟨?_, Nat.zero_le _, fun hc => by simp at hc⟩
    intro o ho
    simp only [List.mem_append, List.mem_cons, List.mem_singleton, List.not_mem_nil,
      or_false] at ho
    rcases ho with (ho | ho) | ho <;> subst ho
    · exact hp
    · exact hp
    · exact Nat.zero_le _
  | ok cats =>
    dsimp only
    set ndb := (run_news_scan env s).state.db with hndb
    set cr := crawl_loop env (sort_by_count cats) ndb ⟨CATEGORIES.length, 0, "Crawling"⟩
      with hcrdef
    have hslen : (sort_by_count cats).length = CATEGORIES.length := by
      rw [sort_by_count_length]
      exact build_counts_length _ _ _ hbc
    have hcr := crawl_loop_progress env (sort_by_count cats) ndb
      ⟨CATEGORIES.length, 0, "Crawling"⟩
    rw [← hcrdef] at hcr
    have hroom : (0 : Nat) + (sort_by_count cats).length ≤ CATEGORIES.length := by omega
    have hcrtot : cr.prog.total = CATEGORIES.length := hcr.1
    have hcrobs : ∀ pr ∈ cr.progObs, pr.done ≤ pr.total := (hcr.2.1 hroom).1
    have hcrdone : cr.prog.done ≤ CATEGORIES.length := (hcr.2.1 hroom).2
    split
    · try dsimp only
      refine ⟨?_, by omega, fun hc => by simp at hc⟩
      intro o ho
      simp only [List.mem_append, List.mem_cons, List.mem_singleton, List.mem_map,
        List.not_mem_nil, or_false] at ho
      rcases ho with (ho | ho) | ho | ⟨pr, hpr, ho⟩
      · subst ho; exact hp
      · subst ho; exact hp
      · subst ho; exact Nat.zero_le _
      · subst ho; exact hcrobs pr hpr
    · rename_i hce
      by_cases hqf : env.db_fail DbW.queryPending = true
      · simp only [hqf, if_true]
        try dsimp only
        refine ⟨?_, by omega, fun hc => by simp at hc⟩
        intro o ho
        simp only [List.mem_append, List.mem_cons, List.mem_singleton, List.mem_map,
          List.not_mem_nil, or_false] at ho
        rcases ho with (ho | ho) | ho | ⟨pr, hpr, ho⟩
        · subst ho; exact hp
        · subst ho; exact hp
        · subst ho; exact Nat.zero_le _
        · subst ho; exact hcrobs pr hpr
      · simp only [hqf, Bool.false_eq_true, if_false]
        set pend := get_projects_needing_analysis cr.db 50 with hpend
        set an := scan_analyze_loop env pend cr.db ⟨pend.length, 0, "Analyzing"⟩ with handef
        have han := scan_analyze_loop_progress env pend cr.db ⟨pend.length, 0, "Analyzing"⟩
        rw [← handef] at han
        have hroom2 : (0 : Nat) + pend.length ≤ pend.length := by omega
        have hantot : an.prog.total = pend.length := han.1
        have hanobs : ∀ pr ∈ an.progObs, pr.done ≤ pr.total := (han.2.1 hroom2).1
        have handone : an.prog.done ≤ pend.length := (han.2.1 hroom2).2
        have hobs : ∀ o ∈
            ([⟨true, some "news_scan", s.run.progress⟩,
              (⟨false, none, s.run.progress⟩ : RunState)] ++
              (⟨false, none, ⟨CATEGORIES.length, 0, "Crawling"⟩⟩ : RunState) ::
                (cr.progObs.map fun pr => (⟨false, none, pr⟩ : RunState)) ++
                  (⟨false, none, ⟨pend.length, 0, "Analyzing"⟩⟩ : RunState) ::
                    (an.progObs.map fun pr => (⟨false, none, pr⟩ : RunState))),
            o.progress.done ≤ o.progress.total := by
          intro o ho
          simp only [List.mem_append, List.mem_cons, List.mem_singleton, List.mem_map,
            List.not_mem_nil, or_false] at ho
          rcases ho with ((ho | ho) | ho | ⟨pr, hpr, ho⟩) | ho | ⟨pr, hpr, ho⟩
          · subst ho; exact hp
          · subst ho; exact hp
          · subst ho; exact Nat.zero_le _
          · subst ho; exact hcrobs pr hpr
          · subst ho; exact Nat.zero_le _
          · subst ho; exact hanobs pr hpr
        have hcomplete : an.err = none →
            an.prog.done = an.prog.total ∧
            ∃ o ∈
              ([⟨true, some "news_scan", s.run.progress⟩,
                (⟨false, none, s.run.progress⟩ : RunState)] ++
                (⟨false, none, ⟨CATEGORIES.length, 0, "Crawling"⟩⟩ : RunState) ::
                  (cr.progObs.map fun pr => (⟨false, none, pr⟩ : RunState)) ++
                    (⟨false, none, ⟨pend.length, 0, "Analyzing"⟩⟩ : RunState) ::
                      (an.progObs.map fun pr => (⟨false, none, pr⟩ : RunState))),
              o.progress.total = CATEGORIES.length ∧ o.progress.done = CATEGORIES.length := by
          intro hanerr
          have hdone : an.prog.done = 0 + pend.length := han.2.2 hanerr
          refine ⟨by omega, ?_⟩
          have hnenil : sort_by_count cats ≠ [] := by
            intro hnil
            rw [hnil] at hslen
            have h17 : CATEGORIES.length = 17 := rfl
            simp only [List.length_nil] at hslen
            omega
          have hce2 : (crawl_loop env (sort_by_count cats) ndb
              ⟨CATEGORIES.length, 0, "Crawling"⟩).err = none := by
            rw [← hcrdef]; exact hce
          rcases crawl_loop_obs_final env (sort_by_count cats) ndb
              ⟨CATEGORIES.length, 0, "Crawling"⟩ hce2 hnenil with ⟨pr, hprm, ht, hd⟩
          rw [← hcrdef] at hprm
          refine ⟨⟨false, none, pr⟩, ?_, ?_, ?_⟩
          · exact List.mem_append.mpr (Or.inl (List.mem_append.mpr (Or.inr
              (List.mem_cons_of_mem _ (List.mem_map.mpr ⟨pr, hprm, rfl⟩)))))
          · exact ht
          · rw [hd, hslen]
            show (0 : Nat) + CATEGORIES.length = CATEGORIES.length
            omega
        split
        · try dsimp only
          exact ⟨hobs, by omega, fun hc => by simp at hc⟩
        · rename_i hae
          by_cases harch : env.archive_fail = true
          · simp only [harch, if_true]
            try dsimp only
            exact ⟨hobs, by omega, fun hc => by simp at hc⟩
          · simp only [harch, Bool.false_eq_true, if_false]
            try dsimp only
            exact ⟨hobs, by omega, fun _ => hcomplete hae⟩

/-- C7: at every observation point of run_full_scan and run_batch_analysis
the progress counters satisfy done ≤ total (0 ≤ done holds by the Nat
representation), provided the inherited progress was well formed; and on
successful completion done equals total for the completed phases: an
error-free full scan ends with the analysis-phase progress complete and
records a crawl-phase observation with done equal to the full category count,
and an uncancelled error-free batch run ends with done = total. -/
theorem c7_progress_invariant (env : Env) (s : MState)
    (hp : s.run.progress.done ≤ s.run.progress.total) :
    (∀ o ∈ (run_full_scan env s).obs, o.progress.done ≤ o.progress.total) ∧
    (∀ o ∈ (run_batch_analysis env s).obs, o.progress.done ≤ o.progress.total) ∧
    ((run_full_scan env s).result.error = none →
      (run_full_scan env s).state.run.progress.done
        = (run_full_scan env s).state.run.progress.total ∧
      ∃ o ∈ (run_full_scan env s).obs,
        o.progress.total = CATEGORIES.length ∧ o.progress.done = CATEGORIES.length) ∧
    ((∀ i, env.stop_at i = false) → (run_batch_analysis env s).result.error = none →
      (run_batch_analysis env s).state.run.progress.done
        = (run_batch_analysis env s).state.run.progress.total) := by
  by_cases hr : s.run.is_running = true
  · refine ⟨?_, ?_, ?_, ?_⟩
    · intro o ho; simp [run_full_scan, hr] at ho
    · intro o ho; simp [run_batch_analysis, hr] at ho
    · intro hc; simp [run_full_scan, hr] at hc
    · intro _ hc; simp [run_batch_analysis, hr] at hc
  · have hfb := full_scan_body_spec env ⟨⟨true, some "full_scan", s.run.progress⟩, s.db⟩ hp
    have hbb := batch_body_spec env s hp
    refine ⟨?_, ?_, ?_, ?_⟩
    · intro o ho
      simp only [run_full_scan, hr, Bool.false_eq_true, if_false] at ho
      rcases List.mem_cons.mp ho with ho | ho
      · subst ho; exact hp
      · rcases List.mem_append.mp ho with ho | ho
        · exact hfb.1 o ho
        · rw [List.mem_singleton] at ho
          subst ho
          exact hfb.2.1
    · intro o ho
      simp only [run_batch_analysis, hr, Bool.false_eq_true, if_false] at ho
      rcases List.mem_cons.mp ho with ho | ho
      · subst ho; exact hp
      · rcases List.mem_append.mp ho with ho | ho
        · rcases List.mem_map.mp ho with ⟨pr, hpr, ho⟩
          subst ho
          exact hbb.1 pr hpr
        · rw [List.mem_singleton] at ho
          subst ho
          exact hbb.2.1
    · intro herr
      simp only [run_full_scan, hr, Bool.false_eq_true, if_false] at herr ⊢
      have hc := hfb.2.2 herr
      refine ⟨hc.1, ?_⟩
      rcases hc.2 with ⟨o, ho, h1, h2⟩
      exact ⟨o, List.mem_cons_of_mem _ (List.mem_append.mpr (Or.inl ho)), h1, h2⟩
    · intro hns herr
      simp only [run_batch_analysis, hr, Bool.false_eq_true, if_false] at herr ⊢
      cases hbe : (batch_body env s).err with
      | some msg => rw [hbe] at herr; simp at herr
      | none => exact hbb.2.2 hns hbe

/-- Witness for C7 at a concrete benign environment and idle state. -/
theorem c7_progress_witness :
    (∀ o ∈ (run_full_scan benignEnv idle0).obs, o.progress.done ≤ o.progress.total) ∧
    (∀ o ∈ (run_batch_analysis benignEnv idle0).obs, o.progress.done ≤ o.progress.total) ∧
    ((run_full_scan benignEnv idle0).result.error = none →
      (run_full_scan benignEnv idle0).state.run.progress.done
        = (run_full_scan benignEnv idle0).state.run.progress.total ∧
      ∃ o ∈ (run_full_scan benignEnv idle0).obs,
        o.progress.total = CATEGORIES.length ∧ o.progress.done = CATEGORIES.length) ∧
    ((∀ i, benignEnv.stop_at i = false) →
      (run_batch_analysis benignEnv idle0).result.error = none →
      (run_batch_analysis benignEnv idle0).state.run.progress.done
        = (run_batch_analysis benignEnv idle0).state.run.progress.total) :=
  c7_progress_invariant benignEnv idle0 (by decide)

end GH
